import Mathlib

/-!
Verification of the glico_control glucose-tracking app's core logic,
shallowly embedded from `src/unnamed/part_000`.

The embedded pieces are:
* `getGlicemiaStyle` (lines 546-552): the per-reading classifier mapping a
  parsed glucose value to one of four display styles.
* `stats` (lines 510-543): the statistics engine over the fetched record
  list (count / average / min / max / status).
* `handleSave` (lines 434-473): validation and persistence of a new record.
* the `useEffect` query window and snapshot delivery (lines 476-507):
  time-range filtering, descending order, limit 100.

JavaScript numbers are modelled by `JSNum`: a rational for every finite
value, plus `nan`, `inf` and `negInf`, with the IEEE comparison behaviour
(every comparison against NaN is false).  `parseFloat` results are carried
as `Option ℚ` (`none` for NaN).  Calendar arithmetic models the
ECMAScript date-string semantics used by `new Date("YYYY-MM-DDTHH:MM:SS")`:
out-of-range fields yield an invalid date (`none`).
-/

namespace GlicoControl

/-- A JavaScript number: a finite value (modelled as a rational), NaN,
Infinity or -Infinity. -/
inductive JSNum where
  | num (q : ℚ)
  | nan
  | inf
  | negInf
deriving DecidableEq

/-- JavaScript `<` on numbers: false whenever either side is NaN. -/
def jlt : JSNum → JSNum → Bool
  | .nan, _ => false
  | _, .nan => false
  | .num a, .num b => a < b
  | .num _, .inf => true
  | .num _, .negInf => false
  | .inf, _ => false
  | .negInf, .negInf => false
  | .negInf, _ => true

/-- JavaScript `<=` on numbers: false whenever either side is NaN. -/
def jle : JSNum → JSNum → Bool
  | .nan, _ => false
  | _, .nan => false
  | .num a, .num b => a ≤ b
  | .num _, .inf => true
  | .num _, .negInf => false
  | .inf, .inf => true
  | .inf, _ => false
  | .negInf, _ => true

/-- JavaScript `>`: `a > b` behaves as `b < a` (false on NaN). -/
def jgt (a b : JSNum) : Bool := jlt b a

/-- JavaScript `>=`: `a >= b` behaves as `b <= a` (false on NaN). -/
def jge (a b : JSNum) : Bool := jle b a

/-- The four CSS emphasis classes returned by `getGlicemiaStyle`
(source lines 548-551): `blue` = the `text-blue-600 ...` class string,
`green` = `text-green-600 ...`, `yellow` = `text-yellow-700 ...`,
`red` = `text-red-600 ...`. -/
inductive Style where
  | blue
  | green
  | yellow
  | red
deriving DecidableEq

/-- The values of the `status` field computed by `stats`
(source lines 519-533): `info` is the empty-list value `'info'`,
`normal` the initial default `'normal'`, and the other four the
strings `'hipoglicemia'`, `'hiperglicemia'`, `'ótimo'`, `'moderado'`. -/
inductive Status where
  | info
  | normal
  | hipoglicemia
  | hiperglicemia
  | otimo
  | moderado
deriving DecidableEq

/-- The four clinical status bands of the specification's Classifier. -/
inductive Band where
  | hypo
  | optimal
  | moderate
  | hyper
deriving DecidableEq

/-- The clinical band each display style stands for (the style strings of
lines 548-551 encode the band by colour). -/
def bandOfStyle : Style → Band
  | .blue => .hypo
  | .green => .optimal
  | .yellow => .moderate
  | .red => .hyper

/-- The clinical band a `stats` status stands for; `info` (no data) and
`normal` (the never-overwritten default) are not clinical bands. -/
def bandOfStatus : Status → Option Band
  | .info => none
  | .normal => none
  | .hipoglicemia => some .hypo
  | .hiperglicemia => some .hyper
  | .otimo => some .optimal
  | .moderado => some .moderate

/-- Source lines 546-552: per-reading classifier.
`const val = parseFloat(value); if (val < 70) ...; if (val <= 130) ...;
if (val <= 180) ...; return red`.  The argument is the `parseFloat`
result (a `JSNum`, so the NaN fall-through to `red` is kept). -/
def getGlicemiaStyle (val : JSNum) : Style :=
  if jlt val (.num 70) then .blue
  else if jle val (.num 130) then .green
  else if jle val (.num 180) then .yellow
  else .red

/-- Source lines 519-533: the status chain of `stats`, run on the average.
`let status = 'normal'; if (avg < 70) ... else if (avg > 180) ...
else if (avg >= 70 && avg <= 130) ... else if (avg > 130 && avg <= 180) ...`. -/
def statsStatus (avg : JSNum) : Status :=
  if jlt avg (.num 70) then .hipoglicemia
  else if jgt avg (.num 180) then .hiperglicemia
  else if jge avg (.num 70) && jle avg (.num 130) then .otimo
  else if jgt avg (.num 130) && jle avg (.num 180) then .moderado
  else .normal

/-- A stored glucose record, reduced to the fields the core logic reads:
`glicemia` is the `parseFloat` reading of the stored value string
(`none` when it does not parse), `timestamp` the stored instant. -/
structure GlicemiaRecord where
  glicemia : Option ℚ
  timestamp : Int
deriving DecidableEq

/-- Source line 512: `registros.map(r => parseFloat(r.glicemia)).filter(v => !isNaN(v))`:
the list of values that parse, in order. -/
def parsedValues (registros : List GlicemiaRecord) : List ℚ :=
  registros.filterMap (fun r => r.glicemia)

/-- Source line 513: `values.reduce((acc, v) => acc + v, 0)`. -/
def jsSum (l : List ℚ) : ℚ := l.foldl (fun acc v => acc + v) 0

/-- Source line 514: `sum / values.length`; JavaScript `0 / 0` is NaN. -/
def jsAvg (l : List ℚ) : JSNum :=
  if l.length = 0 then .nan else .num (jsSum l / l.length)

/-- Source line 515: `Math.min(...values)`; on the empty spread
`Math.min()` returns Infinity. -/
def jsMin : List ℚ → JSNum
  | [] => .inf
  | x :: xs => .num (xs.foldl min x)

/-- Source line 516: `Math.max(...values)`; on the empty spread
`Math.max()` returns -Infinity. -/
def jsMax : List ℚ → JSNum
  | [] => .negInf
  | x :: xs => .num (xs.foldl max x)

/-- Rounding to one decimal place, as `toFixed(1)` renders a finite value
(nearest, ties up). -/
def roundTo1 (q : ℚ) : ℚ := ((round (q * 10) : ℤ) : ℚ) / 10

/-- Rounding to an integer, as `toFixed(0)` renders a finite value. -/
def roundTo0 (q : ℚ) : ℚ := ((round q : ℤ) : ℚ)

/-- JavaScript `x.toFixed(1)`: rounds a finite value to one decimal;
NaN and the infinities render as themselves. -/
def toFixed1 : JSNum → JSNum
  | .num q => .num (roundTo1 q)
  | x => x

/-- JavaScript `x.toFixed(0)`: rounds a finite value to an integer;
NaN and the infinities render as themselves. -/
def toFixed0 : JSNum → JSNum
  | .num q => .num (roundTo0 q)
  | x => x

/-- The object returned by `stats` (source lines 535-542), without the
purely presentational `color` field. -/
structure StatsResult where
  avg : JSNum
  count : Nat
  min : JSNum
  max : JSNum
  status : Status
deriving DecidableEq

/-- Source lines 510-543: the statistics engine.
`if (registros.length === 0) return { avg: 0, count: 0, min: 0, max: 0, status: 'info' }`;
otherwise parse and filter the values, compute sum, average, min, max and
the status chain on the raw average, and return the rounded display
values (`avg.toFixed(1)`, `min.toFixed(0)`, `max.toFixed(0)`). -/
def stats (registros : List GlicemiaRecord) : StatsResult :=
  if registros.length = 0 then ⟨.num 0, 0, .num 0, .num 0, .info⟩
  else
    let values := parsedValues registros
    let avg := jsAvg values
    ⟨toFixed1 avg, values.length, toFixed0 (jsMin values), toFixed0 (jsMax values),
      statsStatus avg⟩

/-- Outcome of `handleSave`'s validation (lines 439-455): `ok` when the
record is written, otherwise which inline error message was shown. -/
inductive SaveResult where
  | ok
  | invalidValue
  | invalidDateTime
deriving DecidableEq

/-- A calendar date as carried by the `YYYY-MM-DD` value of a date input. -/
structure CalDate where
  y : Nat
  m : Nat
  d : Nat
deriving DecidableEq

/-- A clock time as carried by the `HH:MM` value of a time input. -/
structure ClockTime where
  hh : Nat
  mm : Nat
deriving DecidableEq

/-- Proleptic-Gregorian leap year, as used by ECMAScript dates. -/
def isLeap (y : Nat) : Bool :=
  decide ((y % 4 = 0 ∧ ¬ y % 100 = 0) ∨ y % 400 = 0)

/-- One on a leap year, zero otherwise. -/
def leapOffset (y : Nat) : Nat := if isLeap y then 1 else 0

/-- Days in month `m` (numbered 1-12) of year `y`; 0 for an out-of-range
month. -/
def daysInMonth (y m : Nat) : Nat :=
  match m with
  | 1 => 31
  | 2 => 28 + leapOffset y
  | 3 => 31
  | 4 => 30
  | 5 => 31
  | 6 => 30
  | 7 => 31
  | 8 => 31
  | 9 => 30
  | 10 => 31
  | 11 => 30
  | 12 => 31
  | _ => 0

/-- Days of year `y` before the first day of month `m`. -/
def daysBeforeMonth (y m : Nat) : Nat :=
  match m with
  | 1 => 0
  | 2 => 31
  | 3 => 59 + leapOffset y
  | 4 => 90 + leapOffset y
  | 5 => 120 + leapOffset y
  | 6 => 151 + leapOffset y
  | 7 => 181 + leapOffset y
  | 8 => 212 + leapOffset y
  | 9 => 243 + leapOffset y
  | 10 => 273 + leapOffset y
  | 11 => 304 + leapOffset y
  | 12 => 334 + leapOffset y
  | _ => 0

/-- ECMAScript validity of a `YYYY-MM-DD` date string: month 1-12 and day
within the month (an out-of-range field makes `new Date(...)` invalid). -/
def validDate (dt : CalDate) : Bool :=
  decide (1 ≤ dt.m ∧ dt.m ≤ 12 ∧ 1 ≤ dt.d ∧ dt.d ≤ daysInMonth dt.y dt.m)

/-- Validity of an `HH:MM` time-input value. -/
def validTime (t : ClockTime) : Bool :=
  decide (t.hh ≤ 23 ∧ t.mm ≤ 59)

/-- Leap years `k` with `0 ≤ k < y` in the proleptic Gregorian calendar. -/
def leapsBefore (y : Nat) : Nat :=
  (y + 3) / 4 - (y + 99) / 100 + (y + 399) / 400

/-- Days from the first day of year 0 to the first day of year `y`. -/
def daysBeforeYear (y : Nat) : Nat := 365 * y + leapsBefore y

/-- The day index of a date, counting from day 0 = year 0, January 1. -/
def dayNumber (dt : CalDate) : Nat :=
  daysBeforeYear dt.y + daysBeforeMonth dt.y dt.m + (dt.d - 1)

/-- The instant (in seconds on a linear local clock) denoted by
`new Date("YYYY-MM-DDT" + time)` for a second-of-day offset, or `none`
when the date is invalid. -/
def dateTimeInstant (dt : CalDate) (secondOfDay : Nat) : Option Int :=
  if validDate dt then some ((dayNumber dt : Int) * 86400 + secondOfDay) else none

/-- The instant of the save form's `new Date(data + "T" + hora + ":00")`
(lines 448-449): `none` when the combined date/time is invalid. -/
def saveInstant (dt : CalDate) (t : ClockTime) : Option Int :=
  if validTime t then dateTimeInstant dt (t.hh * 3600 + t.mm * 60) else none

/-- Source lines 434-473 (`handleSave`): parse the value, reject NaN and
values `<= 0` with the invalid-value message; build the instant, reject an
invalid date/time; otherwise `addDoc` the single full record.  The first
argument is the `parseFloat` reading of the value field, the last the
owner's stored document list, returned unchanged on failure. -/
def handleSave (glicemia : Option ℚ) (data : CalDate) (hora : ClockTime)
    (store : List GlicemiaRecord) : SaveResult × List GlicemiaRecord :=
  match glicemia with
  | none => (.invalidValue, store)
  | some v =>
    if v ≤ 0 then (.invalidValue, store)
    else
      match saveInstant data hora with
      | none => (.invalidDateTime, store)
      | some ts => (.ok, store ++ [⟨some v, ts⟩])

/-- What the history effect (lines 476-507) does with the two filter
dates: the source always computes `startOfDay`/`endOfDay` and issues the
query (`runQuery`); the `invalidRange` outcome is the rejection the
specification's RangeFilter contract demands, included here so that the
contract is statable — the source never produces it. -/
inductive FilterOutcome where
  | runQuery (startTs stopTs : Option Int)
  | invalidRange
deriving DecidableEq

/-- Source lines 480-489: `startOfDay = new Date(dataInicio + "T00:00:00")`,
`endOfDay = new Date(dataFim + "T23:59:59")`, then the range query. -/
def windowFor (dataInicio dataFim : CalDate) : FilterOutcome :=
  .runQuery (dateTimeInstant dataInicio 0) (dateTimeInstant dataFim 86399)

/-- Calendar order on dates (year, then month, then day). -/
def dateLt (a b : CalDate) : Prop :=
  a.y < b.y ∨ (a.y = b.y ∧ (a.m < b.m ∨ (a.m = b.m ∧ a.d < b.d)))

instance (a b : CalDate) : Decidable (dateLt a b) := by
  unfold dateLt
  infer_instance

/-- The query's range filter (lines 485-486): `timestamp >= start` and
`timestamp <= end`, both inclusive. -/
def inWindow (s e : Int) (r : GlicemiaRecord) : Bool :=
  decide (s ≤ r.timestamp) && decide (r.timestamp ≤ e)

/-- The query's order (line 487): `orderBy('timestamp', 'desc')`. -/
def tsDesc (a b : GlicemiaRecord) : Prop := b.timestamp ≤ a.timestamp

instance : DecidableRel tsDesc :=
  fun a b => inferInstanceAs (Decidable (b.timestamp ≤ a.timestamp))

instance : IsTotal GlicemiaRecord tsDesc :=
  ⟨fun a b => le_total b.timestamp a.timestamp⟩

instance : IsTrans GlicemiaRecord tsDesc :=
  ⟨fun _ _ _ hab hbc => le_trans hbc hab⟩

/-- The snapshot the subscription delivers for a store state `docs`
(already scoped to the owner's partition, line 483) and window `[s, e]`:
the matching records, newest first, capped at 100 (lines 485-496). -/
def snapshotRecords (docs : List GlicemiaRecord) (s e : Int) : List GlicemiaRecord :=
  (List.insertionSort tsDesc (docs.filter (inWindow s e))).take 100

/-! Helper lemmas about the classifier, the fold-based aggregates, and the
calendar arithmetic. -/

lemma bandStyle_eq (v : ℚ) :
    bandOfStyle (getGlicemiaStyle (.num v)) =
      if v < 70 then .hypo else if v ≤ 130 then .optimal
      else if v ≤ 180 then .moderate else .hyper := by
  simp only [getGlicemiaStyle, jlt, jle, decide_eq_true_eq]
  split_ifs <;> rfl

lemma band_agree (v : ℚ) :
    bandOfStatus (statsStatus (.num v)) = some (bandOfStyle (getGlicemiaStyle (.num v))) := by
  rw [bandStyle_eq]
  by_cases h1 : v < 70
  · simp [statsStatus, jlt, jle, jge, jgt, h1, bandOfStatus]
  · by_cases h2 : v ≤ 130
    · have h3 : ¬ (180 < v) := by linarith
      have h4 : 70 ≤ v := le_of_not_lt h1
      simp [statsStatus, jlt, jle, jge, jgt, h1, h2, h3, h4, bandOfStatus]
    · by_cases h3 : v ≤ 180
      · have h4 : ¬ (180 < v) := by linarith
        have h5 : 130 < v := lt_of_not_le h2
        simp [statsStatus, jlt, jle, jge, jgt, h1, h2, h3, h4, h5, bandOfStatus]
      · have h4 : 180 < v := lt_of_not_le h3
        simp [statsStatus, jlt, jle, jge, jgt, h1, h2, h3, h4, bandOfStatus]

lemma foldl_add_eq (l : List ℚ) (a : ℚ) :
    l.foldl (fun acc v => acc + v) a = a + l.sum := by
  induction l generalizing a with
  | nil => simp
  | cons x xs ih => simp only [List.foldl_cons, List.sum_cons, ih]; ring

lemma jsSum_eq_sum (l : List ℚ) : jsSum l = l.sum := by
  simp [jsSum, foldl_add_eq]

lemma foldl_min_le_init (xs : List ℚ) (x : ℚ) : xs.foldl min x ≤ x := by
  induction xs generalizing x with
  | nil => simp
  | cons a xs ih =>
      simp only [List.foldl_cons]
      exact le_trans (ih (min x a)) (min_le_left _ _)

lemma foldl_min_le_mem (xs : List ℚ) (x y : ℚ) (hy : y ∈ xs) : xs.foldl min x ≤ y := by
  induction hy generalizing x with
  | head as =>
      simp only [List.foldl_cons]
      exact le_trans (foldl_min_le_init _ _) (min_le_right _ _)
  | tail b hmem ih =>
      simp only [List.foldl_cons]
      exact ih _

lemma foldl_min_mem (xs : List ℚ) (x : ℚ) : xs.foldl min x ∈ x :: xs := by
  induction xs generalizing x with
  | nil => simp
  | cons a xs ih =>
      simp only [List.foldl_cons]
      rcases List.mem_cons.1 (ih (min x a)) with he | hm
      · rcases min_choice x a with hc | hc
        · rw [he, hc]; exact List.mem_cons_self _ _
        · rw [he, hc]; exact List.mem_cons_of_mem _ (List.mem_cons_self _ _)
      · exact List.mem_cons_of_mem _ (List.mem_cons_of_mem _ hm)

lemma foldl_max_ge_init (xs : List ℚ) (x : ℚ) : x ≤ xs.foldl max x := by
  induction xs generalizing x with
  | nil => simp
  | cons a xs ih =>
      simp only [List.foldl_cons]
      exact le_trans (le_max_left _ _) (ih (max x a))

lemma foldl_max_ge_mem (xs : List ℚ) (x y : ℚ) (hy : y ∈ xs) : y ≤ xs.foldl max x := by
  induction hy generalizing x with
  | head as =>
      simp only [List.foldl_cons]
      exact le_trans (le_max_right _ _) (foldl_max_ge_init _ _)
  | tail b hmem ih =>
      simp only [List.foldl_cons]
      exact ih _

lemma foldl_max_mem (xs : List ℚ) (x : ℚ) : xs.foldl max x ∈ x :: xs := by
  induction xs generalizing x with
  | nil => simp
  | cons a xs ih =>
      simp only [List.foldl_cons]
      rcases List.mem_cons.1 (ih (max x a)) with he | hm
      · rcases max_choice x a with hc | hc
        · rw [he, hc]; exact List.mem_cons_self _ _
        · rw [he, hc]; exact List.mem_cons_of_mem _ (List.mem_cons_self _ _)
      · exact List.mem_cons_of_mem _ (List.mem_cons_of_mem _ hm)

lemma jsMin_spec (l : List ℚ) (hl : l ≠ []) :
    ∃ m, jsMin l = .num m ∧ m ∈ l ∧ ∀ x ∈ l, m ≤ x := by
  obtain ⟨x, xs, rfl⟩ := List.exists_cons_of_ne_nil hl
  refine ⟨xs.foldl min x, rfl, foldl_min_mem xs x, ?_⟩
  intro z hz
  rcases List.mem_cons.1 hz with he | hm
  · exact he ▸ foldl_min_le_init xs x
  · exact foldl_min_le_mem xs x z hm

lemma jsMax_spec (l : List ℚ) (hl : l ≠ []) :
    ∃ m, jsMax l = .num m ∧ m ∈ l ∧ ∀ x ∈ l, x ≤ m := by
  obtain ⟨x, xs, rfl⟩ := List.exists_cons_of_ne_nil hl
  refine ⟨xs.foldl max x, rfl, foldl_max_mem xs x, ?_⟩
  intro z hz
  rcases List.mem_cons.1 hz with he | hm
  · exact he ▸ foldl_max_ge_init xs x
  · exact foldl_max_ge_mem xs x z hm

lemma jsMin_perm {l l' : List ℚ} (h : List.Perm l l') : jsMin l = jsMin l' := by
  cases l with
  | nil =>
      have : l' = [] := (h.symm).eq_nil
      rw [this]
  | cons x xs =>
      have hl : (x :: xs) ≠ [] := by simp
      have hl' : l' ≠ [] := by
        intro he
        rw [he] at h
        exact hl h.eq_nil
      obtain ⟨m, hm, hmem, hle⟩ := jsMin_spec _ hl
      obtain ⟨m', hm', hmem', hle'⟩ := jsMin_spec _ hl'
      rw [hm, hm']
      have h1 : m ≤ m' := hle _ (h.mem_iff.2 hmem')
      have h2 : m' ≤ m := hle' _ (h.mem_iff.1 hmem)
      rw [le_antisymm h1 h2]

lemma jsMax_perm {l l' : List ℚ} (h : List.Perm l l') : jsMax l = jsMax l' := by
  cases l with
  | nil =>
      have : l' = [] := (h.symm).eq_nil
      rw [this]
  | cons x xs =>
      have hl : (x :: xs) ≠ [] := by simp
      have hl' : l' ≠ [] := by
        intro he
        rw [he] at h
        exact hl h.eq_nil
      obtain ⟨m, hm, hmem, hle⟩ := jsMax_spec _ hl
      obtain ⟨m', hm', hmem', hle'⟩ := jsMax_spec _ hl'
      rw [hm, hm']
      have h1 : m' ≤ m := hle _ (h.mem_iff.2 hmem')
      have h2 : m ≤ m' := hle' _ (h.mem_iff.1 hmem)
      rw [le_antisymm h2 h1]

lemma stats_eq_of_ne (registros : List GlicemiaRecord) (h : registros.length ≠ 0) :
    stats registros =
      ⟨toFixed1 (jsAvg (parsedValues registros)), (parsedValues registros).length,
        toFixed0 (jsMin (parsedValues registros)), toFixed0 (jsMax (parsedValues registros)),
        statsStatus (jsAvg (parsedValues registros))⟩ := by
  simp [stats, h]

lemma leapOffset_le_one (y : Nat) : leapOffset y ≤ 1 := by
  unfold leapOffset
  split <;> omega

lemma daysBeforeYear_succ (y : Nat) :
    daysBeforeYear (y + 1) = daysBeforeYear y + 365 + leapOffset y := by
  simp only [daysBeforeYear, leapsBefore, leapOffset, isLeap, decide_eq_true_eq]
  split_ifs with h <;> omega

lemma daysBeforeYear_mono {y y' : Nat} (h : y ≤ y') :
    daysBeforeYear y ≤ daysBeforeYear y' := by
  induction h with
  | refl => exact Nat.le_refl _
  | step h ih =>
      refine le_trans ih ?_
      rw [daysBeforeYear_succ]
      omega

lemma dayOfYear_lt (y m d : Nat) (hm1 : 1 ≤ m) (hm2 : m ≤ 12) (hd1 : 1 ≤ d)
    (hd2 : d ≤ daysInMonth y m) :
    daysBeforeMonth y m + (d - 1) < 365 + leapOffset y := by
  have hlo := leapOffset_le_one y
  interval_cases m <;> simp [daysInMonth, daysBeforeMonth] at hd2 ⊢ <;> omega

lemma daysBeforeMonth_add (y m m' : Nat) (h1 : 1 ≤ m) (h2 : m < m') (h3 : m' ≤ 12) :
    daysBeforeMonth y m + daysInMonth y m ≤ daysBeforeMonth y m' := by
  have hlo := leapOffset_le_one y
  have hm11 : m ≤ 11 := by omega
  interval_cases m <;> interval_cases m' <;>
    simp [daysInMonth, daysBeforeMonth] <;> omega

lemma dayNumber_lt_of_dateLt (a b : CalDate) (ha : validDate a = true)
    (hb : validDate b = true) (h : dateLt a b) : dayNumber a < dayNumber b := by
  obtain ⟨ya, ma, da⟩ := a
  obtain ⟨yb, mb, db⟩ := b
  simp only [validDate, decide_eq_true_eq, dateLt] at ha hb h
  obtain ⟨ham1, ham2, had1, had2⟩ := ha
  obtain ⟨hbm1, hbm2, hbd1, hbd2⟩ := hb
  simp only [dayNumber]
  rcases h with hy | ⟨hy, hm | ⟨hm, hd⟩⟩
  · have hoy := dayOfYear_lt ya ma da ham1 ham2 had1 had2
    have hsucc := daysBeforeYear_succ ya
    have hmono : daysBeforeYear (ya + 1) ≤ daysBeforeYear yb := daysBeforeYear_mono hy
    omega
  · subst hy
    have hstep := daysBeforeMonth_add ya ma mb ham1 hm hbm2
    omega
  · subst hy
    subst hm
    omega

/-! The claims. -/

/-- Claim C1: for every numeric value `v` the per-value classifier assigns
exactly one of the four status bands — Hypoglycemia iff `v < 70`, Optimal
iff `70 ≤ v ≤ 130`, Moderate iff `130 < v ≤ 180`, Hyperglycemia iff
`v > 180` — so the four ranges partition the numeric line with no gap and
no overlap, and `v = 130` is classified Optimal. -/
theorem glico_c1 :
    (∀ v : ℚ,
      (bandOfStyle (getGlicemiaStyle (.num v)) = .hypo ↔ v < 70) ∧
      (bandOfStyle (getGlicemiaStyle (.num v)) = .optimal ↔ 70 ≤ v ∧ v ≤ 130) ∧
      (bandOfStyle (getGlicemiaStyle (.num v)) = .moderate ↔ 130 < v ∧ v ≤ 180) ∧
      (bandOfStyle (getGlicemiaStyle (.num v)) = .hyper ↔ 180 < v)) ∧
    bandOfStyle (getGlicemiaStyle (.num 130)) = .optimal := by
  constructor
  · intro v
    rw [bandStyle_eq]
    split_ifs with h1 h2 h3 <;>
      refine ⟨?_, ?_, ?_, ?_⟩ <;> simp <;>
      first
        | (intros; linarith)
        | (constructor <;> linarith)
  · rw [bandStyle_eq]; norm_num

/-- Claim C2: on a record list with at least one value that parses, `stats`
uses exactly the parsed values: `count` is their number, `avg` the
arithmetic mean rounded to one decimal, `min` and `max` the extrema
rounded to zero decimals, and the `status` band is the classifier band of
the unrounded mean. -/
theorem glico_c2 (registros : List GlicemiaRecord)
    (h : parsedValues registros ≠ []) :
    (stats registros).count = (parsedValues registros).length ∧
    (stats registros).avg =
      .num (roundTo1 ((parsedValues registros).sum / (parsedValues registros).length)) ∧
    (∃ m, m ∈ parsedValues registros ∧ (∀ x ∈ parsedValues registros, m ≤ x) ∧
      (stats registros).min = .num (roundTo0 m)) ∧
    (∃ m, m ∈ parsedValues registros ∧ (∀ x ∈ parsedValues registros, x ≤ m) ∧
      (stats registros).max = .num (roundTo0 m)) ∧
    bandOfStatus (stats registros).status =
      some (bandOfStyle (getGlicemiaStyle
        (.num ((parsedValues registros).sum / (parsedValues registros).length)))) := by
  have hreg : registros.length ≠ 0 := by
    intro he
    rw [List.length_eq_zero] at he
    rw [he] at h
    exact h rfl
  have hvlen : (parsedValues registros).length ≠ 0 := by
    rwa [Ne, List.length_eq_zero]
  have havg : jsAvg (parsedValues registros) =
      .num ((parsedValues registros).sum / (parsedValues registros).length) := by
    rw [jsAvg, if_neg hvlen, jsSum_eq_sum]
  rw [stats_eq_of_ne _ hreg]
  obtain ⟨m, hm, hmem, hle⟩ := jsMin_spec _ h
  obtain ⟨M, hM, hMem, hMle⟩ := jsMax_spec _ h
  refine ⟨rfl, ?_, ⟨m, hmem, hle, ?_⟩, ⟨M, hMem, hMle, ?_⟩, ?_⟩
  · rw [havg]; rfl
  · rw [hm]; rfl
  · rw [hM]; rfl
  · rw [havg]
    exact band_agree _

/-- Witness for C2 at the specification's own example, the two records
with values 50 and 200 (count 2, average 125, min 50, max 200, Optimal). -/
theorem glico_c2_witness :
    (stats [⟨some 50, 0⟩, ⟨some 200, 1⟩]).count =
      (parsedValues [⟨some 50, 0⟩, ⟨some 200, 1⟩]).length ∧
    (stats [⟨some 50, 0⟩, ⟨some 200, 1⟩]).avg =
      .num (roundTo1 ((parsedValues [⟨some 50, 0⟩, ⟨some 200, 1⟩]).sum /
        (parsedValues [⟨some 50, 0⟩, ⟨some 200, 1⟩]).length)) ∧
    (∃ m, m ∈ parsedValues [⟨some 50, 0⟩, ⟨some 200, 1⟩] ∧
      (∀ x ∈ parsedValues [⟨some 50, 0⟩, ⟨some 200, 1⟩], m ≤ x) ∧
      (stats [⟨some 50, 0⟩, ⟨some 200, 1⟩]).min = .num (roundTo0 m)) ∧
    (∃ m, m ∈ parsedValues [⟨some 50, 0⟩, ⟨some 200, 1⟩] ∧
      (∀ x ∈ parsedValues [⟨some 50, 0⟩, ⟨some 200, 1⟩], x ≤ m) ∧
      (stats [⟨some 50, 0⟩, ⟨some 200, 1⟩]).max = .num (roundTo0 m)) ∧
    bandOfStatus (stats [⟨some 50, 0⟩, ⟨some 200, 1⟩]).status =
      some (bandOfStyle (getGlicemiaStyle
        (.num ((parsedValues [⟨some 50, 0⟩, ⟨some 200, 1⟩]).sum /
          (parsedValues [⟨some 50, 0⟩, ⟨some 200, 1⟩]).length)))) :=
  glico_c2 [⟨some 50, 0⟩, ⟨some 200, 1⟩] (by simp [parsedValues])

/-- Claim C3: `handleSave` fails with the invalid-value error exactly when
the raw value does not parse or parses to a value `≤ 0`; it fails with the
invalid-date/time error exactly when the value is acceptable but the
combined date and time form no valid instant; on any failure the store is
unchanged, and on success exactly the one full record is appended. -/
theorem glico_c3 (glicemia : Option ℚ) (data : CalDate) (hora : ClockTime)
    (store : List GlicemiaRecord) :
    ((handleSave glicemia data hora store).1 = .invalidValue ↔
      glicemia = none ∨ ∃ v, glicemia = some v ∧ v ≤ 0) ∧
    ((handleSave glicemia data hora store).1 = .invalidDateTime ↔
      (∃ v, glicemia = some v ∧ 0 < v) ∧ saveInstant data hora = none) ∧
    ((handleSave glicemia data hora store).1 ≠ .ok →
      (handleSave glicemia data hora store).2 = store) ∧
    ((handleSave glicemia data hora store).1 = .ok →
      ∃ v ts, glicemia = some v ∧ 0 < v ∧ saveInstant data hora = some ts ∧
        (handleSave glicemia data hora store).2 = store ++ [⟨some v, ts⟩]) := by
  match glicemia with
  | none => simp [handleSave]
  | some v =>
      by_cases hv : v ≤ 0
      · simp [handleSave, hv]
      · cases hts : saveInstant data hora with
        | none => simp [handleSave, hv, hts, lt_of_not_le hv]
        | some ts => simp [handleSave, hv, hts, lt_of_not_le hv]

/-- Counterexample to claim C4 as stated: February 30 is malformed, yet
the filter does not fail with an InvalidRange error — it issues the query
anyway. -/
theorem glico_c4_cex :
    validDate ⟨2024, 2, 30⟩ = false ∧
    windowFor ⟨2024, 2, 30⟩ ⟨2024, 3, 1⟩ ≠ .invalidRange := by
  constructor
  · decide
  · simp [windowFor]

/-- Claim C4 as amended: `windowFor` computes the window start date at
00:00:00 and end date at 23:59:59 local when the dates are valid, and it
never fails with an InvalidRange error — a malformed date is not
rejected; the query is issued with a silently invalid instant. -/
theorem glico_c4 (dataInicio dataFim : CalDate) :
    (∃ s e, windowFor dataInicio dataFim = .runQuery s e ∧
      (validDate dataInicio = true → s = some ((dayNumber dataInicio : Int) * 86400)) ∧
      (validDate dataFim = true → e = some ((dayNumber dataFim : Int) * 86400 + 86399)) ∧
      (validDate dataInicio = false → s = none) ∧
      (validDate dataFim = false → e = none)) ∧
    windowFor dataInicio dataFim ≠ .invalidRange := by
  refine ⟨⟨_, _, rfl, ?_, ?_, ?_, ?_⟩, by simp [windowFor]⟩ <;>
    intro h <;> simp [dateTimeInstant, h]

/-- Claim C5: `stats` on the empty record list returns count 0, average 0,
min 0, max 0 and the distinct fifth informational status, which is none of
the four clinical bands. -/
theorem glico_c5 :
    stats [] = ⟨.num 0, 0, .num 0, .num 0, .info⟩ ∧
    Status.info ≠ .hipoglicemia ∧ Status.info ≠ .otimo ∧
    Status.info ≠ .moderado ∧ Status.info ≠ .hiperglicemia ∧
    bandOfStatus .info = none := by
  refine ⟨rfl, ?_, ?_, ?_, ?_, rfl⟩ <;> decide

/-- Claim C6: for every numeric input the batch-level status chain of
`stats` and the per-reading classifier `getGlicemiaStyle` denote the same
clinical band — the two classification paths agree over the same four
thresholds. -/
theorem glico_c6 (v : ℚ) :
    bandOfStatus (statsStatus (.num v)) = some (bandOfStyle (getGlicemiaStyle (.num v))) :=
  band_agree v

/-- Claim C7: when the start date is strictly after the end date (both
valid), the window the source builds matches no timestamp at all, so the
delivered snapshot is deterministically empty — no error is raised. -/
theorem glico_c7 (docs : List GlicemiaRecord) (dataInicio dataFim : CalDate)
    (hds : validDate dataInicio = true) (hde : validDate dataFim = true)
    (hgt : dateLt dataFim dataInicio) :
    ∀ s e, windowFor dataInicio dataFim = .runQuery (some s) (some e) →
      snapshotRecords docs s e = [] := by
  intro s e hw
  have hlt := dayNumber_lt_of_dateLt dataFim dataInicio hde hds hgt
  simp only [windowFor, dateTimeInstant, hds, hde, if_pos, FilterOutcome.runQuery.injEq,
    Option.some.injEq] at hw
  obtain ⟨hs, he⟩ := hw
  have hse : e < s := by omega
  have hfil : docs.filter (inWindow s e) = [] := by
    rw [List.filter_eq_nil_iff]
    intro r _
    simp only [inWindow, Bool.and_eq_true, decide_eq_true_eq, not_and]
    intro h1
    omega
  simp [snapshotRecords, hfil]

/-- Witness for C7: a window from 2024-03-02 back to 2024-03-01 delivers
nothing, even for a store holding a record on the start date. -/
theorem glico_c7_witness :
    snapshotRecords [⟨some 100, 739312 * 86400⟩]
      ((dayNumber ⟨2024, 3, 2⟩ : Int) * 86400)
      ((dayNumber ⟨2024, 3, 1⟩ : Int) * 86400 + 86399) = [] :=
  glico_c7 [⟨some 100, 739312 * 86400⟩] ⟨2024, 3, 2⟩ ⟨2024, 3, 1⟩
    (by decide) (by decide) (by decide)
    ((dayNumber ⟨2024, 3, 2⟩ : Int) * 86400)
    ((dayNumber ⟨2024, 3, 1⟩ : Int) * 86400 + 86399)
    rfl

/-- Claim C8: the delivered snapshot contains only records whose timestamp
lies in the inclusive window; when at most 100 records match, it contains
a record exactly when the record matches; it is ordered by timestamp
descending; it holds at most 100 records; and every matching record left
out is no newer than any record delivered (the oldest beyond the cap are
the ones excluded). -/
theorem glico_c8 (docs : List GlicemiaRecord) (s e : Int) :
    (∀ r ∈ snapshotRecords docs s e, s ≤ r.timestamp ∧ r.timestamp ≤ e) ∧
    ((docs.filter (inWindow s e)).length ≤ 100 →
      ∀ r, r ∈ snapshotRecords docs s e ↔
        r ∈ docs ∧ s ≤ r.timestamp ∧ r.timestamp ≤ e) ∧
    List.Sorted tsDesc (snapshotRecords docs s e) ∧
    (snapshotRecords docs s e).length ≤ 100 ∧
    (∀ r ∈ snapshotRecords docs s e, ∀ r' ∈ docs,
      inWindow s e r' = true → r' ∉ snapshotRecords docs s e →
      r'.timestamp ≤ r.timestamp) := by
  have hperm := List.perm_insertionSort tsDesc (docs.filter (inWindow s e))
  have hsorted := List.sorted_insertionSort tsDesc (docs.filter (inWindow s e))
  refine ⟨?_, ?_, ?_, ?_, ?_⟩
  · intro r hr
    have hmem : r ∈ docs.filter (inWindow s e) :=
      hperm.mem_iff.1 (List.take_subset _ _ hr)
    have := (List.mem_filter.1 hmem).2
    simpa [inWindow] using this
  · intro hlen r
    have hlen' : (List.insertionSort tsDesc (docs.filter (inWindow s e))).length ≤ 100 := by
      rw [hperm.length_eq]
      exact hlen
    rw [snapshotRecords, List.take_of_length_le hlen', hperm.mem_iff, List.mem_filter]
    simp [inWindow]
  · exact List.Pairwise.sublist (List.take_sublist _ _) hsorted
  · rw [snapshotRecords]
    simp [List.length_take]
  · intro r hr r' hdocs hwin hnot
    have hmem : r' ∈ docs.filter (inWindow s e) := List.mem_filter.2 ⟨hdocs, hwin⟩
    have hsortmem : r' ∈ List.insertionSort tsDesc (docs.filter (inWindow s e)) :=
      hperm.mem_iff.2 hmem
    set L := List.insertionSort tsDesc (docs.filter (inWindow s e)) with hL
    have hsplit : L.take 100 ++ L.drop 100 = L := List.take_append_drop _ _
    have hdrop : r' ∈ L.drop 100 := by
      rcases (List.mem_append.1 (hsplit ▸ hsortmem)) with h | h
      · exact absurd h hnot
      · exact h
    have hpw : List.Pairwise tsDesc (L.take 100 ++ L.drop 100) := by
      rw [hsplit]
      exact hsorted
    exact (List.pairwise_append.1 hpw).2.2 r hr r' hdrop

/-- Claim C9: `stats` is invariant under any permutation of its input —
count, average, min, max and status depend only on the multiset of
values. -/
theorem glico_c9 (l l' : List GlicemiaRecord) (h : List.Perm l l') :
    stats l = stats l' := by
  have hlen := h.length_eq
  have hv : List.Perm (parsedValues l) (parsedValues l') := h.filterMap _
  by_cases h0 : l.length = 0
  · have h0' : l'.length = 0 := by omega
    simp [stats, h0, h0']
  · have h0' : l'.length ≠ 0 := by omega
    rw [stats_eq_of_ne _ h0, stats_eq_of_ne _ h0']
    have havg : jsAvg (parsedValues l) = jsAvg (parsedValues l') := by
      rw [jsAvg, jsAvg, jsSum_eq_sum, jsSum_eq_sum, hv.sum_eq, hv.length_eq]
    rw [havg, hv.length_eq, jsMin_perm hv, jsMax_perm hv]

/-- Witness for C9: a three-record list and a reordering of it produce the
same summary. -/
theorem glico_c9_witness :
    stats [⟨some 50, 0⟩, ⟨some 200, 1⟩, ⟨none, 2⟩] =
      stats [⟨none, 2⟩, ⟨some 200, 1⟩, ⟨some 50, 0⟩] :=
  glico_c9 _ _ (by decide)

/-- Claim C10: on a non-empty record list in which no value parses, `stats`
does not return the informational no-data status: count is 0, the average
is the NaN of the unguarded `0 / 0`, min and max are the infinities of the
empty `Math.min()` and `Math.max()`, and the status falls through to the
default normal band because NaN satisfies none of the four threshold
comparisons. -/
theorem glico_c10 (registros : List GlicemiaRecord) (hne : registros ≠ [])
    (hall : ∀ r ∈ registros, r.glicemia = none) :
    stats registros = ⟨.nan, 0, .inf, .negInf, .normal⟩ ∧
    (stats registros).status ≠ .info := by
  have hreg : registros.length ≠ 0 := by
    rwa [Ne, List.length_eq_zero]
  have hv : parsedValues registros = [] := by
    rw [parsedValues, List.filterMap_eq_nil_iff]
    exact hall
  have h1 : stats registros = ⟨.nan, 0, .inf, .negInf, .normal⟩ := by
    rw [stats_eq_of_ne _ hreg, hv]
    rfl
  exact ⟨h1, by rw [h1]; decide⟩

/-- Witness for C10 at a two-record list whose values both fail to parse. -/
theorem glico_c10_witness :
    stats [⟨none, 0⟩, ⟨none, 1⟩] = ⟨.nan, 0, .inf, .negInf, .normal⟩ ∧
    (stats [⟨none, 0⟩, ⟨none, 1⟩]).status ≠ .info :=
  glico_c10 [⟨none, 0⟩, ⟨none, 1⟩] (by decide) (by decide)

end GlicoControl
